import Mathlib

/-!
Shallow embedding of `source/lambda/schedulers/ecs_service.py` from the
`ecs-ec2-rds-scheduler` repository, together with proofs that settle the
frozen claims about its specification.

Conventions of the embedding:
* Python strings are Lean `String`s (a structure over `List Char` in this
  toolchain); character-wise regex substitution and `str.replace` become
  `List.map` over the character data.
* Fallible operations (string parsing, dictionary unpacking) return `Option`.
* The ECS/tagging client is modelled by an environment `ApiEnv : ApiCall → Bool`
  stating which API calls raise; functions that perform calls return the
  ordered trace of attempted calls alongside their results.
* Python dictionaries holding tag records are modelled by `TagRec`, which has
  one optional field per dictionary key the source ever reads or writes.
* Pagination loops ("while not done") are modelled against single-page
  responses: the environment hands over the complete listing at once, which is
  exactly the fixed point the loop computes.
-/

/-! ## Python string helpers -/

/-- Python `s.split(sep)` for a single-character separator: splits on every
occurrence; the empty string yields one empty field. -/
def pySplitAll (sep : Char) : List Char → List (List Char)
  | [] => [[]]
  | c :: rest =>
    let r := pySplitAll sep rest
    if c = sep then [] :: r
    else
      match r with
      | [] => [[c]]
      | h :: t => (c :: h) :: t

/-- Python `s.split(sep, 1)` for a single-character separator, demanding that
the separator occurs (the source unpacks the result into two variables, which
raises otherwise): returns the part before the first occurrence and the rest. -/
def pySplitOnce (sep : Char) : List Char → Option (List Char × List Char)
  | [] => none
  | c :: rest =>
    if c = sep then some ([], rest)
    else
      match pySplitOnce sep rest with
      | some (a, b) => some (c :: a, b)
      | none => none

/-- Parse a non-empty all-digit character list as a natural number. -/
def parseDigits (l : List Char) : Option Nat :=
  if l.isEmpty then none
  else if l.all Char.isDigit then
    some (l.foldl (fun a c => 10 * a + (c.toNat - 48)) 0)
  else none

/-- Python's `int()` builtin restricted to decimal literals with an optional
sign, the only shapes the source ever feeds it. -/
def pyInt (s : String) : Option Int :=
  match s.data with
  | [] => none
  | c :: rest =>
    if c = '-' then (parseDigits rest).map (fun n => -(n : Int))
    else if c = '+' then (parseDigits rest).map (fun n => (n : Int))
    else (parseDigits (c :: rest)).map (fun n => (n : Int))

/-- Little-endian decimal digits of `n`, with explicit fuel. -/
def natDigitsRev (fuel n : Nat) : List Nat :=
  match fuel with
  | 0 => []
  | fuel + 1 => if n < 10 then [n] else n % 10 :: natDigitsRev fuel (n / 10)

/-- Decimal representation of a natural number, as Python's `str` builtin
produces it for the non-negative `desiredCount` values the source stringifies. -/
def pyNatStr (n : Nat) : String := ⟨(natDigitsRev (n + 1) n).reverse.map Nat.digitChar⟩

/-! ## Tag values and the restricted ECS character set -/

/-- The whitespace matched by `\s` in the source's regex
`RESTRICTED_ECS_TAG_VALUE_SET_CHARACTERS`: Python 3 `re` on `str` matches
Unicode whitespace — the ASCII characters `[ \t\n\r\f\v]` together with
U+001C-U+001F, U+0085, U+00A0, U+1680, U+2000-U+200A, U+2028, U+2029,
U+202F, U+205F and U+3000. -/
def pyWhitespaceChar (c : Char) : Bool :=
  c = ' ' || c = '\t' || c = '\n' || c = '\x0d' || c = '\x0b' || c = '\x0c' ||
  (0x1c ≤ c.toNat && c.toNat ≤ 0x1f) || c.toNat = 0x85 || c.toNat = 0xa0 ||
  c.toNat = 0x1680 || (0x2000 ≤ c.toNat && c.toNat ≤ 0x200a) ||
  c.toNat = 0x2028 || c.toNat = 0x2029 || c.toNat = 0x202f ||
  c.toNat = 0x205f || c.toNat = 0x3000

/-- Membership in the character class that the regex
`[^a-zA-Z0-9\s_\.:+/=\\@-]` (line 27 of the source) leaves alone: letters,
digits, whitespace and the characters `_ . : + / = \ @ -`. -/
def ecsTagAllowedChar (c : Char) : Bool :=
  c.isAlpha || c.isDigit || pyWhitespaceChar c ||
  c = '_' || c = '.' || c = ':' || c = '+' || c = '/' || c = '=' ||
  c = '\\' || c = '@' || c = '-'

/-- `re.sub(RESTRICTED_ECS_TAG_VALUE_SET_CHARACTERS, " ", value)`: every
character outside the allowed class becomes a single space. -/
def reSubRestricted (s : String) : String :=
  ⟨s.data.map fun c => if ecsTagAllowedChar c then c else ' '⟩

/-- `value.replace("\n", " ")`. -/
def pyReplaceNewline (s : String) : String :=
  ⟨s.data.map fun c => if c = '\n' then ' ' else c⟩

/-- The two-pass value cleanup performed by `_validate_ecs_tag_values` on one
value (lines 409-410 of the source). -/
def validateTagValue (s : String) : String := pyReplaceNewline (reSubRestricted s)

/-- Spec-side characterization of the cleanup, claim C9: each character
outside the allowed set, and any literal newline, becomes a single space;
every other character is unchanged. -/
def ecsNormalizeChar (c : Char) : Char :=
  if ecsTagAllowedChar c && !(c = '\n') then c else ' '

/-- A value already inside the allowed character set (and newline-free), the
fixed points of the cleanup. -/
def tagValueWithinAllowedSet (s : String) : Bool :=
  s.data.all fun c => ecsTagAllowedChar c && !(c = '\n')

/-- A tag record as the source manipulates it: a Python dictionary that may
carry provider-shaped capitalized fields and/or lowercase fields. Only these
four keys are ever read or written by the source. -/
structure TagRec where
  bigKey : Option String
  bigValue : Option String
  key : Option String
  value : Option String
deriving DecidableEq, Repr

/-- `t["key"]` on a tag record. The source reads this key only on records it
has just renamed into lowercase shape; on a record lacking the key Python
would raise `KeyError`, a case no claim exercises, embedded as `""`. -/
def tagKeyOf (t : TagRec) : String := t.key.getD ""

/-- `_validate_ecs_tag_values` (lines 405-414): deep-copies the tag list and,
for each record, rewrites its `value` through the restricted-character
substitution and the newline replacement, recording a warning (original and
changed value) exactly when the value changed. -/
def _validate_ecs_tag_values : List TagRec → List TagRec × List (String × String)
  | [] => ([], [])
  | t :: rest =>
    let original_value := t.value.getD ""
    let v := validateTagValue original_value
    let (ts, ws) := _validate_ecs_tag_values rest
    if v = original_value then (t :: ts, ws)
    else ({ t with value := some v } :: ts, (original_value, v) :: ws)

/-! ## Maintenance-window schedule builder -/

/-- A time of day as `SchedulerConfigBuilder.get_time_from_string` returns it. -/
structure HHMM where
  hour : Nat
  minute : Nat
deriving DecidableEq, Repr

/-- Minutes after midnight. -/
def toMinutes (t : HHMM) : Nat := t.hour * 60 + t.minute

/-- Modelled from the spec: `SchedulerConfigBuilder.get_time_from_string` is
code of this repository that is not under `src/`; per section 4.2 it parses an
`HH:MM` token "into time-of-day values", failing on malformed input. -/
def get_time_from_string (s : String) : Option HHMM :=
  match pySplitAll ':' s.data with
  | [h, m] =>
    match parseDigits h, parseDigits m with
    | some hh, some mm => if hh < 24 && mm < 60 then some ⟨hh, mm⟩ else none
    | _, _ => none
  | _ => none

/-- Modelled from the spec: `WeekdaySetBuilder().build` is code of this
repository that is not under `src/`; per section 4.2 it parses "weekday tokens
into single weekday values". Tokens are the spec's day names ("Mon", "Tue",
...), numbered Mon=0 .. Sun=6, and the returned weekday set is the singleton
of that value. -/
def weekday_set_build (s : String) : Option (List Nat) :=
  if s = "Mon" then some [0]
  else if s = "Tue" then some [1]
  else if s = "Wed" then some [2]
  else if s = "Thu" then some [3]
  else if s = "Fri" then some [4]
  else if s = "Sat" then some [5]
  else if s = "Sun" then some [6]
  else none

def MAINTENANCE_SCHEDULE_NAME : String := "RDS preferred Maintenance Window Schedule"

def MAINTENANCE_PERIOD_NAME : String := "RDS preferred Maintenance Window Period"

/-- A `RunningPeriod` as constructed by the source: name, begin and end times
of day, and the weekday set. -/
structure RunningPeriod where
  name : String
  begintime : HHMM
  endtime : HHMM
  weekdays : List Nat
deriving DecidableEq, Repr

/-- One entry of the `periods` list handed to `InstanceSchedule`: the source
wraps each period in a dictionary, adding an `instancetype: None` key in the
two-period branch only. -/
structure PeriodEntry where
  period : RunningPeriod
  instancetypeKeyPresent : Bool
deriving DecidableEq, Repr

/-- An `InstanceSchedule` with the fields the source populates. -/
structure InstanceSchedule where
  name : String
  periods : List PeriodEntry
  timezone : String
  enforced : Bool
deriving DecidableEq, Repr

/-- The four tokens of a maintenance-window string: `period_str.split("-")`
into exactly two halves, each half split on its first `:` (lines 140-142). -/
def parseWindow (s : String) : Option (String × String × String × String) :=
  match pySplitAll '-' s.data with
  | [a, b] =>
    match pySplitOnce ':' a, pySplitOnce ':' b with
    | some (d1, t1), some (d2, t2) => some (⟨d1⟩, ⟨t1⟩, ⟨d2⟩, ⟨t2⟩)
    | _, _ => none
  | _ => none

/-- `build_schedule_from_maintenance_window` (lines 131-184): one period when
the two weekday tokens are equal, two periods split at the day boundary
otherwise, wrapped in a schedule with the fixed name, timezone UTC and
`enforced=True`. -/
def build_schedule_from_maintenance_window (period_str : String) : Option InstanceSchedule :=
  match parseWindow period_str with
  | none => none
  | some (start_day_string, start_hhmm_string, stop_day_string, stop_hhmm_string) =>
    match weekday_set_build start_day_string with
    | none => none
    | some start_weekday =>
      match get_time_from_string start_hhmm_string, get_time_from_string stop_hhmm_string with
      | some start_time, some end_time =>
        if start_day_string = stop_day_string then
          some ⟨MAINTENANCE_SCHEDULE_NAME,
            [⟨⟨MAINTENANCE_PERIOD_NAME, start_time, end_time, start_weekday⟩, false⟩],
            "UTC", true⟩
        else
          match get_time_from_string "23:59", get_time_from_string "00:00",
                weekday_set_build stop_day_string with
          | some end_time_day1, some begin_time_day2, some stop_weekday =>
            some ⟨MAINTENANCE_SCHEDULE_NAME,
              [⟨⟨MAINTENANCE_PERIOD_NAME ++ "-" ++ start_day_string,
                 start_time, end_time_day1, start_weekday⟩, true⟩,
               ⟨⟨MAINTENANCE_PERIOD_NAME ++ "-" ++ stop_day_string,
                 begin_time_day2, end_time, stop_weekday⟩, true⟩],
              "UTC", true⟩
          | _, _, _ => none
      | _, _ => none

/-- A period covers weekday `d` at minute-of-day `m` when `d` is in its
weekday set and `m` lies between its begin and end times, inclusively. -/
def periodCovers (p : RunningPeriod) (d m : Nat) : Prop :=
  d ∈ p.weekdays ∧ toMinutes p.begintime ≤ m ∧ m ≤ toMinutes p.endtime

instance (p : RunningPeriod) (d m : Nat) : Decidable (periodCovers p d m) := by
  unfold periodCovers; infer_instance

/-! ## Discovery -/

/-- One record of a `describe_services` response, with the fields
`_select_resource_data` reads. `tags` is `none` when the record carries no
`"tags"` key at all. -/
structure SvcData where
  serviceArn : String
  clusterArn : String
  status : String
  runningCount : Nat
  desiredCount : Nat
  launchType : String
  tags : Option (List (String × String))
deriving DecidableEq, Repr

/-- One record of a `describe_clusters` response. -/
structure ClusterData where
  clusterArn : String
  clusterName : String
  tags : Option (List (String × String))
deriving DecidableEq, Repr

/-- The ECS control-plane inventory behind the paginated list/describe calls:
the cluster records, and the service records of each cluster keyed by the
cluster name that `list_services`/`describe_services` are called with. -/
structure EcsInventory where
  clusters : List ClusterData
  services : List (String × List SvcData)
deriving Repr

def servicesOf (inv : EcsInventory) (clusterName : String) : List SvcData :=
  (inv.services.lookup clusterName).getD []

/-- `get_tags` (line 266-267): the tag mapping of a resource record, empty
when the record has no `"tags"` key. Tag keys are unique in provider
responses, so association-list lookup models the Python dictionary. -/
def get_tags (tags : Option (List (String × String))) : List (String × String) :=
  match tags with
  | some l => l
  | none => []

/-- `_filter_resource_based_on_tags` (lines 269-274): a resource is scheduled
iff its tag mapping has the configured schedule tag key. -/
def _filter_resource_based_on_tags (tagname : String)
    (tags : Option (List (String × String))) : Bool :=
  ((get_tags tags).lookup tagname).isSome

/-- `InstanceSchedule.STATE_RUNNING`. Modelled from the spec: the constant
lives in `configuration/instance_schedule.py`, not under `src/`; section 3
fixes `currentState ∈ {Running, Stopped}` with "Running iff runningCount>0". -/
def STATE_RUNNING : String := "running"

/-- `InstanceSchedule.STATE_STOPPED`. Modelled from the spec, as for
`STATE_RUNNING`. -/
def STATE_STOPPED : String := "stopped"

/-- The instance-data dictionary `_select_resource_data` builds, one field per
`schedulers.INST_*` key it populates. -/
structure InstanceData where
  id : String
  arn : String
  cluster_arn : String
  allow_resize : Bool
  hibernate : Bool
  state : String
  state_name : String
  is_running : Bool
  is_terminated : Bool
  current_state : String
  instance_type : String
  ecs_service_stop_tag : Bool
  maintenance_window : Option InstanceSchedule
  tags : List (String × String)
  name : String
  schedule : Option String
  running_count : Nat
  desired_count : Nat
deriving DecidableEq, Repr

/-- `_select_resource_data` (lines 367-400). The second argument is the
`tag_service_having_no_tag` parameter (default `False` at call sites that omit
it), which lands in the `INST_SERVICE_STOP_TAG` field. -/
def _select_resource_data (tagname : String) (ecs_resource : SvcData)
    (tag_service_having_no_tag : Bool) : InstanceData :=
  let tags := get_tags ecs_resource.tags
  let is_running := decide (0 < ecs_resource.runningCount)
  { id := ecs_resource.serviceArn
    arn := ecs_resource.serviceArn
    cluster_arn := ecs_resource.clusterArn
    allow_resize := false
    hibernate := false
    state := ecs_resource.status
    state_name := "running"
    is_running := is_running
    is_terminated := false
    current_state := if is_running then STATE_RUNNING else STATE_STOPPED
    instance_type := ecs_resource.launchType
    ecs_service_stop_tag := tag_service_having_no_tag
    maintenance_window := none
    tags := tags
    name := (tags.lookup "Name").getD ""
    schedule := tags.lookup tagname
    running_count := ecs_resource.runningCount
    desired_count := ecs_resource.desiredCount }

/-- `_validate_service_tag_values` (lines 301-327): every described service of
the cluster is selected; services carrying the schedule tag are selected with
`tag_service_having_no_tag=False`, the others with `True` (the
`INST_SERVICE_STOP_TAG` force-stop marker). -/
def _validate_service_tag_values (tagname : String) (svcs : List SvcData) :
    List InstanceData :=
  svcs.map fun svc =>
    if _filter_resource_based_on_tags tagname svc.tags then
      _select_resource_data tagname svc false
    else
      _select_resource_data tagname svc true

/-- `get_all_services` (lines 330-365): every described service of the
cluster is selected, force-stop marker `False` regardless of its tags. -/
def get_all_services (tagname : String) (svcs : List SvcData) : List InstanceData :=
  svcs.map fun svc => _select_resource_data tagname svc false

/-- The partition `get_schedulable_ecs_clusters`/`_validate_cluster_tag_values`
(lines 220-264) computes: cluster names carrying the schedule tag versus the
rest, in listing order. -/
structure MixedClusters where
  clusters_with_schedule : List String
  clusters_without_schedule : List String
deriving DecidableEq, Repr

def get_schedulable_ecs_clusters (tagname : String) (clusters : List ClusterData) :
    MixedClusters :=
  { clusters_with_schedule :=
      (clusters.filter fun c => _filter_resource_based_on_tags tagname c.tags).map
        ClusterData.clusterName
    clusters_without_schedule :=
      (clusters.filter fun c => !(_filter_resource_based_on_tags tagname c.tags)).map
        ClusterData.clusterName }

/-- `get_schedulable_instances` (lines 188-218). NOTE the first loop is
`services = self.get_schedulable_ecs_services(cluster, ...)` in the source —
an assignment inside the loop over `clusters_without_schedule`, not an
`extend` — so each iteration discards the accumulator; the second loop uses
`services.extend(...)`. The fold functions mirror this exactly. -/
def get_schedulable_instances (tagname : String) (inv : EcsInventory) :
    List InstanceData :=
  let mixed_clusters := get_schedulable_ecs_clusters tagname inv.clusters
  let services : List InstanceData :=
    mixed_clusters.clusters_without_schedule.foldl
      (fun _ cluster => _validate_service_tag_values tagname (servicesOf inv cluster)) []
  let services :=
    mixed_clusters.clusters_with_schedule.foldl
      (fun acc cluster => acc ++ get_all_services tagname (servicesOf inv cluster)) services
  services

/-! ## Tag reconciliation and the start/stop executor -/

/-- A managed resource as handed to `stop_instances`/`start_instances`: the
attributes of the scheduler's instance object that those functions read. -/
structure EcsResource where
  id : String
  arn : String
  cluster_arn : String
  desired_count : Nat
  tags : List (String × String)
  is_cluster : Bool
deriving DecidableEq, Repr

/-- One attempted ECS API call. -/
inductive ApiCall where
  | updateService (cluster service : String) (desiredCount : Int)
  | tagResource (resourceArn : String) (tags : List TagRec)
  | untagResource (resourceArn : String) (tagKeys : List String)
deriving DecidableEq, Repr

/-- Which API calls raise: `env c = true` means call `c` throws. The retrying
client makes every call a single blocking operation (spec section 5). -/
abbrev ApiEnv := ApiCall → Bool

/-- The in-place renaming both tagging paths apply to each record:
`if 'Key' in t and 'Value' in t: t['key'] = t.pop('Key'); t['value'] = t.pop('Value')`. -/
def renameTagRec (t : TagRec) : TagRec :=
  if t.bigKey.isSome && t.bigValue.isSome then
    { bigKey := none, bigValue := none, key := t.bigKey, value := t.bigValue }
  else t

/-- The tag the stop path synthesizes:
`{'key': 'ScheduledLastDesiredCount', 'value': str(ecs_resource.desired_count)}`. -/
def synthDesiredCountTag (r : EcsResource) : TagRec :=
  ⟨none, none, some "ScheduledLastDesiredCount", some (pyNatStr r.desired_count)⟩

/-- The stack/schedule configuration fields the transition paths read:
`self._config.started_tags` and `self._config.stopped_tags`. -/
structure SchedulerConfig where
  started_tags : List TagRec
  stopped_tags : List TagRec
deriving DecidableEq, Repr

/-- Result of one tagging path: the ordered trace of attempted calls, the
configuration after its in-place mutations, and whether an exception was
caught and logged as a warning. -/
structure TagCallResult where
  calls : List ApiCall
  config : SchedulerConfig
  warned : Bool
deriving Repr

/-- `_tag_stopped_resource` (lines 451-483): validate the configured stopped
tags (on a deep copy), rename provider-shaped records in both tag lists — the
started list being `self._config.started_tags` itself, mutated in place —
append the synthesized desired-count tag, then inside a try/except issue the
removal of start-only keys (when non-empty) followed by the application of the
stop tags (when non-empty); an exception is caught and logged as a warning. -/
def _tag_stopped_resource (env : ApiEnv) (cfg : SchedulerConfig) (r : EcsResource) :
    TagCallResult :=
  let stop_tags0 := (_validate_ecs_tag_values cfg.stopped_tags).1
  let stop_tags1 := stop_tags0.map renameTagRec
  let started_tags := cfg.started_tags.map renameTagRec
  let cfg' : SchedulerConfig := { cfg with started_tags := started_tags }
  let stop_tags := stop_tags1 ++ [synthDesiredCountTag r]
  let stop_tags_key_names := stop_tags.map tagKeyOf
  let start_tags_keys :=
    (started_tags.map tagKeyOf).filter fun k => !(stop_tags_key_names.contains k)
  let untagCall := ApiCall.untagResource r.arn start_tags_keys
  let tagCall := ApiCall.tagResource r.arn stop_tags
  if start_tags_keys.isEmpty then
    if stop_tags.isEmpty then ⟨[], cfg', false⟩
    else ⟨[tagCall], cfg', env tagCall⟩
  else
    if env untagCall then ⟨[untagCall], cfg', true⟩
    else if stop_tags.isEmpty then ⟨[untagCall], cfg', false⟩
    else ⟨[untagCall, tagCall], cfg', env tagCall⟩

/-- `_tag_started_instances` (lines 485-515): symmetric to the stop path —
validate the configured started tags (on a deep copy), rename records in both
lists, the stopped list being `self._config.stopped_tags` itself, then issue
the removal of stop-only keys (when non-empty) followed by the application of
the start tags (when non-empty); exceptions are caught and logged. No tag is
synthesized on this path. -/
def _tag_started_instances (env : ApiEnv) (cfg : SchedulerConfig) (r : EcsResource) :
    TagCallResult :=
  let start_tags0 := (_validate_ecs_tag_values cfg.started_tags).1
  let start_tags := start_tags0.map renameTagRec
  let stopped_tags := cfg.stopped_tags.map renameTagRec
  let cfg' : SchedulerConfig := { cfg with stopped_tags := stopped_tags }
  let start_tags_key_names := start_tags.map tagKeyOf
  let stop_tags_keys :=
    (stopped_tags.map tagKeyOf).filter fun k => !(start_tags_key_names.contains k)
  let untagCall := ApiCall.untagResource r.arn stop_tags_keys
  let tagCall := ApiCall.tagResource r.arn start_tags
  if stop_tags_keys.isEmpty then
    if start_tags.isEmpty then ⟨[], cfg', false⟩
    else ⟨[tagCall], cfg', env tagCall⟩
  else
    if env untagCall then ⟨[untagCall], cfg', true⟩
    else if start_tags.isEmpty then ⟨[untagCall], cfg', false⟩
    else ⟨[untagCall, tagCall], cfg', env tagCall⟩

/-- Outcome of a whole stop/start batch: the ordered `(resourceId, newState)`
results, the ordered trace of attempted API calls, the configuration after
all in-place mutations, and whether the batch was abandoned by an exception. -/
structure BatchResult where
  results : List (String × String)
  calls : List ApiCall
  config : SchedulerConfig
  aborted : Bool
deriving Repr

/-- `stop_instances` (lines 518-541), with the generator fully consumed: per
resource, in input order, `update_service(desiredCount=0)` then the stop
tagging path then yield `(id, STATE_STOPPED)`; the try/except wraps the whole
loop, so an exception from the resize call logs an error and abandons the
remaining batch. -/
def stop_instances (env : ApiEnv) (cfg : SchedulerConfig) :
    List EcsResource → BatchResult
  | [] => ⟨[], [], cfg, false⟩
  | r :: rest =>
    let upd := ApiCall.updateService r.cluster_arn r.arn 0
    if env upd then ⟨[], [upd], cfg, true⟩
    else
      let tr := _tag_stopped_resource env cfg r
      let b := stop_instances env tr.config rest
      ⟨(r.id, STATE_STOPPED) :: b.results, upd :: tr.calls ++ b.calls, b.config, b.aborted⟩

/-- `int(ecs_resource.tags['ScheduledLastDesiredCount'])` in the start path:
`none` when the tag is absent or its value is not an integer literal (Python
raises KeyError/ValueError there, inside the batch try/except). -/
def startDesired (r : EcsResource) : Option Int :=
  (r.tags.lookup "ScheduledLastDesiredCount").bind pyInt

/-- `start_instances` (lines 545-567), with the generator fully consumed: per
resource, in input order, read the captured desired count from the resource's
`ScheduledLastDesiredCount` tag, `update_service` to it, run the start tagging
path, yield `(id, STATE_RUNNING)`; any exception logs an error and abandons
the remaining batch. -/
def start_instances (env : ApiEnv) (cfg : SchedulerConfig) :
    List EcsResource → BatchResult
  | [] => ⟨[], [], cfg, false⟩
  | r :: rest =>
    match startDesired r with
    | none => ⟨[], [], cfg, true⟩
    | some n =>
      let upd := ApiCall.updateService r.cluster_arn r.arn n
      if env upd then ⟨[], [upd], cfg, true⟩
      else
        let tr := _tag_started_instances env cfg r
        let b := start_instances env tr.config rest
        ⟨(r.id, STATE_RUNNING) :: b.results, upd :: tr.calls ++ b.calls, b.config, b.aborted⟩

/-- Processing of one resource in the stop batch succeeds iff its resize call
does not raise. -/
def stopOk (env : ApiEnv) (r : EcsResource) : Bool :=
  !(env (ApiCall.updateService r.cluster_arn r.arn 0))

/-- Processing of one resource in the start batch succeeds iff its captured
desired count parses and its resize call does not raise. -/
def startOk (env : ApiEnv) (r : EcsResource) : Bool :=
  match startDesired r with
  | none => false
  | some n => !(env (ApiCall.updateService r.cluster_arn r.arn n))
/-- The per-record action of `_validate_ecs_tag_values`. -/
def validateTagRec (t : TagRec) : TagRec :=
  if validateTagValue (t.value.getD "") = t.value.getD "" then t
  else { t with value := some (validateTagValue (t.value.getD "")) }

/-- The warning `_validate_ecs_tag_values` logs for one record, when any. -/
def tagWarnOf (t : TagRec) : Option (String × String) :=
  if validateTagValue (t.value.getD "") = t.value.getD "" then none
  else some (t.value.getD "", validateTagValue (t.value.getD ""))

/-! ## Discovery: the failing multi-cluster input for C1 -/

/-- Failing input for C1: two clusters, neither carrying the schedule tag. -/
def clusterA : ClusterData := ⟨"arnClusterA", "cluA", some []⟩

def clusterB : ClusterData := ⟨"arnClusterB", "cluB", none⟩

/-- A service of cluster A that carries the schedule tag. -/
def svcA : SvcData :=
  ⟨"arnSvcA", "arnClusterA", "ACTIVE", 1, 1, "FARGATE", some [("Schedule", "office")]⟩

/-- A service of cluster B that carries the schedule tag. -/
def svcB : SvcData :=
  ⟨"arnSvcB", "arnClusterB", "ACTIVE", 2, 2, "EC2", some [("Schedule", "office")]⟩

def invC1 : EcsInventory := ⟨[clusterA, clusterB], [("cluA", [svcA]), ("cluB", [svcB])]⟩

/-! ## Tag-value validation: characterization lemmas -/

lemma stringDataExt (a b : String) (h : a.data = b.data) : a = b := by
  cases a
  cases b
  cases h
  rfl

lemma validateTagValue_data (s : String) :
    (validateTagValue s).data = s.data.map ecsNormalizeChar := by
  unfold validateTagValue pyReplaceNewline reSubRestricted
  simp only [List.map_map]
  apply List.map_congr_left
  intro c _
  by_cases h1 : ecsTagAllowedChar c = true
  · by_cases h2 : c = '\n'
    · subst h2
      simp [ecsNormalizeChar, Function.comp, h1]
    · simp [ecsNormalizeChar, Function.comp, h1, h2]
  · simp only [Bool.not_eq_true] at h1
    simp [ecsNormalizeChar, Function.comp, h1]

lemma ecsNormalizeChar_idem (c : Char) :
    ecsNormalizeChar (ecsNormalizeChar c) = ecsNormalizeChar c := by
  by_cases h : (ecsTagAllowedChar c && !(c = '\n')) = true
  · have hc : ecsNormalizeChar c = c := if_pos h
    rw [hc]
    exact hc
  · have hc : ecsNormalizeChar c = ' ' := if_neg h
    rw [hc]
    decide

lemma validateTagValue_idem (s : String) :
    validateTagValue (validateTagValue s) = validateTagValue s := by
  apply stringDataExt
  rw [validateTagValue_data, validateTagValue_data, List.map_map]
  exact List.map_congr_left fun c _ => ecsNormalizeChar_idem c

lemma ecsNormalizeChar_of_allowed {c : Char} (h1 : ecsTagAllowedChar c = true)
    (h2 : c ≠ '\n') : ecsNormalizeChar c = c := by
  simp [ecsNormalizeChar, h1, h2]

lemma validateTagValue_of_valid {s : String}
    (h : tagValueWithinAllowedSet s = true) : validateTagValue s = s := by
  apply stringDataExt
  rw [validateTagValue_data]
  simp only [tagValueWithinAllowedSet, List.all_eq_true, Bool.and_eq_true,
    Bool.not_eq_true', decide_eq_false_iff_not] at h
  have hmap : s.data.map ecsNormalizeChar = s.data.map id :=
    List.map_congr_left fun a ha =>
      ecsNormalizeChar_of_allowed (h a ha).1 (h a ha).2
  rw [hmap, List.map_id]

lemma tagValueWithinAllowedSet_validateTagValue (s : String) :
    tagValueWithinAllowedSet (validateTagValue s) = true := by
  simp only [tagValueWithinAllowedSet, List.all_eq_true]
  intro c hc
  rw [validateTagValue_data] at hc
  simp only [List.mem_map] at hc
  obtain ⟨a, _, rfl⟩ := hc
  by_cases h : (ecsTagAllowedChar a && !(a = '\n')) = true
  · have ha : ecsNormalizeChar a = a := if_pos h
    rw [ha]
    exact h
  · have ha : ecsNormalizeChar a = ' ' := if_neg h
    rw [ha]
    decide

lemma validate_eq_map_filterMap (tags : List TagRec) :
    _validate_ecs_tag_values tags = (tags.map validateTagRec, tags.filterMap tagWarnOf) := by
  induction tags with
  | nil => rfl
  | cons t rest ih =>
    simp only [_validate_ecs_tag_values, ih, List.map_cons, List.filterMap_cons]
    by_cases h : validateTagValue (t.value.getD "") = t.value.getD ""
    · simp [validateTagRec, tagWarnOf, h]
    · simp [validateTagRec, tagWarnOf, h]

lemma validateTagRec_value (t : TagRec) :
    (validateTagRec t).value.getD "" = validateTagValue (t.value.getD "") := by
  unfold validateTagRec
  by_cases h : validateTagValue (t.value.getD "") = t.value.getD ""
  · rw [if_pos h, h]
  · rw [if_neg h]
    rfl

lemma validateTagRec_of_fixed {t : TagRec}
    (h : validateTagValue (t.value.getD "") = t.value.getD "") :
    validateTagRec t = t := if_pos h

lemma validateTagRec_idem (t : TagRec) :
    validateTagRec (validateTagRec t) = validateTagRec t :=
  validateTagRec_of_fixed (by rw [validateTagRec_value, validateTagValue_idem])

lemma tagWarnOf_validateTagRec (t : TagRec) :
    tagWarnOf (validateTagRec t) = none := by
  unfold tagWarnOf
  rw [if_pos (by rw [validateTagRec_value, validateTagValue_idem])]

lemma validateTagRec_of_valid {t : TagRec}
    (h : tagValueWithinAllowedSet (t.value.getD "") = true) : validateTagRec t = t :=
  validateTagRec_of_fixed (validateTagValue_of_valid h)

/-- C8: tag-value validation is idempotent — applying `_validate_ecs_tag_values`
twice yields the same result as applying it once (and the second pass emits no
warnings); re-validating a tag list whose values are already within the allowed
character set leaves it unchanged and emits no warnings. -/
theorem c8_validate_ecs_tag_values_idempotent (tags : List TagRec) :
    _validate_ecs_tag_values ((_validate_ecs_tag_values tags).1) =
      ((_validate_ecs_tag_values tags).1, []) ∧
    ((∀ t ∈ tags, tagValueWithinAllowedSet (t.value.getD "") = true) →
      _validate_ecs_tag_values tags = (tags, [])) := by
  constructor
  · simp only [validate_eq_map_filterMap, List.map_map, Prod.mk.injEq]
    constructor
    · exact List.map_congr_left fun t _ => validateTagRec_idem t
    · simp only [List.filterMap_map]
      exact List.filterMap_eq_nil_iff.2 fun t _ => tagWarnOf_validateTagRec t
  · intro h
    simp only [validate_eq_map_filterMap, Prod.mk.injEq]
    constructor
    · have hmap : tags.map validateTagRec = tags.map id :=
        List.map_congr_left fun t ht => validateTagRec_of_valid (h t ht)
      rw [hmap, List.map_id]
    · refine List.filterMap_eq_nil_iff.2 fun t ht => ?_
      unfold tagWarnOf
      rw [if_pos (validateTagValue_of_valid (h t ht))]

/-- C8 witness: at a concrete already-valid tag list, re-validation is the
identity and produces no warnings. -/
theorem c8_witness :
    _validate_ecs_tag_values [⟨none, none, some "Schedule", some "office-hours"⟩] =
      ([⟨none, none, some "Schedule", some "office-hours"⟩], []) :=
  (c8_validate_ecs_tag_values_idempotent
    [⟨none, none, some "Schedule", some "office-hours"⟩]).2 (by decide)

lemma validateTagValue_eq_mk (s : String) :
    validateTagValue s = ⟨s.data.map ecsNormalizeChar⟩ :=
  stringDataExt _ _ (by rw [validateTagValue_data])

/-- C9: `_validate_ecs_tag_values` implements exactly the restricted character
set — every output value is the input value mapped character-wise through
`ecsNormalizeChar`; the warnings are exactly those of the records whose value
changed; after validation every value contains only allowed characters and no
literal newline; `ecsNormalizeChar` keeps every allowed non-newline character
and sends every other character (and the newline) to a single space. -/
theorem c9_restricted_character_set (tags : List TagRec) :
    ((_validate_ecs_tag_values tags).1.map fun t => t.value.getD "") =
      (tags.map fun t => (⟨(t.value.getD "").data.map ecsNormalizeChar⟩ : String)) ∧
    (_validate_ecs_tag_values tags).2 = tags.filterMap tagWarnOf ∧
    (∀ t ∈ (_validate_ecs_tag_values tags).1,
      tagValueWithinAllowedSet (t.value.getD "") = true) ∧
    (∀ c : Char, ecsTagAllowedChar c = true → c ≠ '\n' → ecsNormalizeChar c = c) ∧
    (∀ c : Char, ecsTagAllowedChar c = false ∨ c = '\n' → ecsNormalizeChar c = ' ') := by
  refine ⟨?_, ?_, ?_, ?_, ?_⟩
  · rw [validate_eq_map_filterMap]
    simp only [List.map_map]
    apply List.map_congr_left
    intro t _
    show (validateTagRec t).value.getD "" = _
    rw [validateTagRec_value, validateTagValue_eq_mk]
  · rw [validate_eq_map_filterMap]
  · intro t ht
    rw [validate_eq_map_filterMap] at ht
    simp only [List.mem_map] at ht
    obtain ⟨a, _, rfl⟩ := ht
    rw [validateTagRec_value]
    exact tagValueWithinAllowedSet_validateTagValue _
  · exact fun c h1 h2 => ecsNormalizeChar_of_allowed h1 h2
  · intro c hc
    have : ¬ (ecsTagAllowedChar c && !(c = '\n')) = true := by
      rcases hc with h | h
      · simp [h]
      · simp [h]
    exact if_neg this

/-- C9 witness: concrete consequences of the characterization — a value that
went through validation is within the allowed set, a disallowed character
(`;`) becomes a space, an allowed character is kept. -/
theorem c9_witness :
    tagValueWithinAllowedSet
      ((⟨none, none, some "Name", some "a b c"⟩ : TagRec).value.getD "") = true ∧
    ecsNormalizeChar ';' = ' ' ∧ ecsNormalizeChar '@' = '@' :=
  ⟨(c9_restricted_character_set [⟨none, none, some "Name", some "a;b\nc"⟩]).2.2.1
      ⟨none, none, some "Name", some "a b c"⟩ (by decide),
   (c9_restricted_character_set []).2.2.2.2 ';' (Or.inl (by decide)),
   (c9_restricted_character_set []).2.2.2.1 '@' (by decide) (by decide)⟩

/-- C10: both tagging paths mutate the caller-supplied configuration tag lists
in place — the stop path renames the provider-shaped `Key`/`Value` records of
`self._config.started_tags` on the configuration object itself (while the
stopped list, protected by the deep copy taken during validation, is
untouched), the start path symmetrically renames `self._config.stopped_tags`
in place — and on any record that has both capitalized fields the renaming is
a proper change, so the configuration does not survive a transition
unchanged. -/
theorem c10_config_tag_lists_mutated_in_place (env : ApiEnv) (cfg : SchedulerConfig)
    (r : EcsResource) :
    (_tag_stopped_resource env cfg r).config =
      ⟨cfg.started_tags.map renameTagRec, cfg.stopped_tags⟩ ∧
    (_tag_started_instances env cfg r).config =
      ⟨cfg.started_tags, cfg.stopped_tags.map renameTagRec⟩ ∧
    (∀ t : TagRec, t.bigKey.isSome = true → t.bigValue.isSome = true →
      renameTagRec t ≠ t) := by
  refine ⟨?_, ?_, ?_⟩
  · unfold _tag_stopped_resource
    dsimp only
    split_ifs <;> rfl
  · unfold _tag_started_instances
    dsimp only
    split_ifs <;> rfl
  · intro t h1 h2 heq
    have hcond : (t.bigKey.isSome && t.bigValue.isSome) = true := by
      rw [h1, h2]
      rfl
    have h3 : renameTagRec t =
        { bigKey := none, bigValue := none, key := t.bigKey, value := t.bigValue } :=
      if_pos hcond
    rw [h3] at heq
    have h4 := congrArg TagRec.bigKey heq
    simp only at h4
    rw [← h4] at h1
    simp at h1

/-- C10 witness: a stop transition on a configuration whose started list holds
a capitalized record leaves the configuration visibly changed. -/
theorem c10_witness :
    (_tag_stopped_resource (fun _ => false)
        ⟨[⟨some "Owner", some "alice", none, none⟩], []⟩
        ⟨"i1", "a1", "c1", 0, [], false⟩).config =
      ⟨[⟨none, none, some "Owner", some "alice"⟩], []⟩ ∧
    renameTagRec ⟨some "Owner", some "alice", none, none⟩ ≠
      ⟨some "Owner", some "alice", none, none⟩ :=
  ⟨((c10_config_tag_lists_mutated_in_place (fun _ => false)
      ⟨[⟨some "Owner", some "alice", none, none⟩], []⟩
      ⟨"i1", "a1", "c1", 0, [], false⟩).1).trans (by decide),
   (c10_config_tag_lists_mutated_in_place (fun _ => false) ⟨[], []⟩
      ⟨"i1", "a1", "c1", 0, [], false⟩).2.2
     ⟨some "Owner", some "alice", none, none⟩ rfl rfl⟩
/-! ## Batch execution lemmas -/

lemma stop_results_takeWhile (env : ApiEnv) (cfg : SchedulerConfig) (rs : List EcsResource) :
    (stop_instances env cfg rs).results =
      (rs.takeWhile (stopOk env)).map fun r => (r.id, STATE_STOPPED) := by
  induction rs generalizing cfg with
  | nil => rfl
  | cons r rest ih =>
    have hok : stopOk env r = !(env (ApiCall.updateService r.cluster_arn r.arn 0)) := rfl
    simp only [List.takeWhile_cons, hok]
    by_cases h : env (ApiCall.updateService r.cluster_arn r.arn 0) = true
    · simp [stop_instances, h]
    · simp only [Bool.not_eq_true] at h
      simp [stop_instances, h, ih]

lemma stop_aborted_any (env : ApiEnv) (cfg : SchedulerConfig) (rs : List EcsResource) :
    (stop_instances env cfg rs).aborted = rs.any fun r => !(stopOk env r) := by
  induction rs generalizing cfg with
  | nil => rfl
  | cons r rest ih =>
    have hok : stopOk env r = !(env (ApiCall.updateService r.cluster_arn r.arn 0)) := rfl
    simp only [List.any_cons, hok]
    by_cases h : env (ApiCall.updateService r.cluster_arn r.arn 0) = true
    · simp [stop_instances, h]
    · simp only [Bool.not_eq_true] at h
      simp [stop_instances, h, ih]

lemma start_results_takeWhile (env : ApiEnv) (cfg : SchedulerConfig) (rs : List EcsResource) :
    (start_instances env cfg rs).results =
      (rs.takeWhile (startOk env)).map fun r => (r.id, STATE_RUNNING) := by
  induction rs generalizing cfg with
  | nil => rfl
  | cons r rest ih =>
    cases hsd : startDesired r with
    | none =>
      have hok : startOk env r = false := by simp [startOk, hsd]
      simp [start_instances, hsd, hok, List.takeWhile_cons]
    | some n =>
      have hok : startOk env r = !(env (ApiCall.updateService r.cluster_arn r.arn n)) := by
        simp [startOk, hsd]
      simp only [List.takeWhile_cons, hok]
      by_cases h : env (ApiCall.updateService r.cluster_arn r.arn n) = true
      · simp [start_instances, hsd, h]
      · simp only [Bool.not_eq_true] at h
        simp [start_instances, hsd, h, ih]

lemma start_aborted_any (env : ApiEnv) (cfg : SchedulerConfig) (rs : List EcsResource) :
    (start_instances env cfg rs).aborted = rs.any fun r => !(startOk env r) := by
  induction rs generalizing cfg with
  | nil => rfl
  | cons r rest ih =>
    cases hsd : startDesired r with
    | none =>
      have hok : startOk env r = false := by simp [startOk, hsd]
      simp [start_instances, hsd, hok, List.any_cons]
    | some n =>
      have hok : startOk env r = !(env (ApiCall.updateService r.cluster_arn r.arn n)) := by
        simp [startOk, hsd]
      simp only [List.any_cons, hok]
      by_cases h : env (ApiCall.updateService r.cluster_arn r.arn n) = true
      · simp [start_instances, hsd, h]
      · simp only [Bool.not_eq_true] at h
        simp [start_instances, hsd, h, ih]

/-- C5: fail-fast batch policy. In both executors the result sequence is the
in-order image of the longest prefix of resources whose processing raises no
exception — results already produced for earlier resources remain, the
failing resource yields no result, no later resource is processed — and the
batch is marked aborted exactly when some resource's processing raises. -/
theorem c5_fail_fast_batch_policy (env : ApiEnv) (cfg : SchedulerConfig)
    (rs : List EcsResource) :
    (stop_instances env cfg rs).results =
      (rs.takeWhile (stopOk env)).map (fun r => (r.id, STATE_STOPPED)) ∧
    (start_instances env cfg rs).results =
      (rs.takeWhile (startOk env)).map (fun r => (r.id, STATE_RUNNING)) ∧
    (stop_instances env cfg rs).aborted = (rs.any fun r => !(stopOk env r)) ∧
    (start_instances env cfg rs).aborted = (rs.any fun r => !(startOk env r)) :=
  ⟨stop_results_takeWhile env cfg rs, start_results_takeWhile env cfg rs,
   stop_aborted_any env cfg rs, start_aborted_any env cfg rs⟩

lemma stop_calls_contain_updates (env : ApiEnv) (cfg : SchedulerConfig)
    (rs : List EcsResource)
    (hupd : ∀ cl sv n, env (ApiCall.updateService cl sv n) = false) :
    ∀ r ∈ rs, ApiCall.updateService r.cluster_arn r.arn 0 ∈ (stop_instances env cfg rs).calls := by
  induction rs generalizing cfg with
  | nil =>
    intro r h
    cases h
  | cons a rest ih =>
    intro r hr
    simp only [stop_instances, hupd a.cluster_arn a.arn 0, Bool.false_eq_true, if_false]
    rcases List.mem_cons.1 hr with rfl | hr'
    · exact List.mem_cons_self _ _
    · exact List.mem_cons_of_mem _
        (List.mem_append_right _ (ih (_tag_stopped_resource env cfg a).config r hr'))

/-- C6: tagging failures are non-fatal. If no resize (`update_service`) call
raises — while tag/untag calls may raise arbitrarily — every resource of the
batch still yields its `(resourceId, newState)` result, in order, on both the
stop and the start path (start additionally needs each resource's captured
desired count to parse); the resize call of every stop-path resource is in
the issued-call trace; and whenever the tag-application calls raise, the stop
tagging path returns normally having logged a warning. -/
theorem c6_tagging_failures_nonfatal (env : ApiEnv) (cfg : SchedulerConfig)
    (rs : List EcsResource)
    (hupd : ∀ cl sv n, env (ApiCall.updateService cl sv n) = false)
    (hparse : ∀ r ∈ rs, (startDesired r).isSome = true) :
    (stop_instances env cfg rs).results = rs.map (fun r => (r.id, STATE_STOPPED)) ∧
    (start_instances env cfg rs).results = rs.map (fun r => (r.id, STATE_RUNNING)) ∧
    (∀ r ∈ rs, ApiCall.updateService r.cluster_arn r.arn 0 ∈ (stop_instances env cfg rs).calls) ∧
    ((∀ a t, env (ApiCall.tagResource a t) = true) →
      ∀ r, (_tag_stopped_resource env cfg r).warned = true) := by
  refine ⟨?_, ?_, stop_calls_contain_updates env cfg rs hupd, ?_⟩
  · rw [stop_results_takeWhile]
    congr 1
    apply List.takeWhile_eq_self_iff.2
    intro r _
    simp [stopOk, hupd]
  · rw [start_results_takeWhile]
    congr 1
    apply List.takeWhile_eq_self_iff.2
    intro r hr
    have := hparse r hr
    cases hsd : startDesired r with
    | none => rw [hsd] at this; cases this
    | some n => simp [startOk, hsd, hupd]
  · intro htag r
    unfold _tag_stopped_resource
    dsimp only
    split_ifs with h1 h2 h3 h4
    · exact absurd h2 (by simp)
    · exact htag _ _
    · rfl
    · exact absurd h4 (by simp)
    · exact htag _ _

/-- C6 witness: with an environment that fails every tagging call but no
resize, a two-resource batch still yields both results on both paths, and the
stop tagging path warns. -/
theorem c6_witness :
    (stop_instances
        (fun c => match c with | ApiCall.updateService _ _ _ => false | _ => true)
        ⟨[], [⟨none, none, some "Env", some "prod"⟩]⟩
        [⟨"s1", "arn1", "c1", 2, [("ScheduledLastDesiredCount", "2")], false⟩,
         ⟨"s2", "arn2", "c1", 3, [("ScheduledLastDesiredCount", "3")], false⟩]).results =
      [("s1", STATE_STOPPED), ("s2", STATE_STOPPED)] ∧
    (start_instances
        (fun c => match c with | ApiCall.updateService _ _ _ => false | _ => true)
        ⟨[], [⟨none, none, some "Env", some "prod"⟩]⟩
        [⟨"s1", "arn1", "c1", 2, [("ScheduledLastDesiredCount", "2")], false⟩,
         ⟨"s2", "arn2", "c1", 3, [("ScheduledLastDesiredCount", "3")], false⟩]).results =
      [("s1", STATE_RUNNING), ("s2", STATE_RUNNING)] ∧
    (_tag_stopped_resource
        (fun c => match c with | ApiCall.updateService _ _ _ => false | _ => true)
        ⟨[], [⟨none, none, some "Env", some "prod"⟩]⟩
        ⟨"s1", "arn1", "c1", 2, [("ScheduledLastDesiredCount", "2")], false⟩).warned = true := by
  refine ⟨?_, ?_, ?_⟩
  · exact ((c6_tagging_failures_nonfatal _ _ _ (fun cl sv n => rfl) (by decide)).1).trans
      (by decide)
  · exact ((c6_tagging_failures_nonfatal _ _ _ (fun cl sv n => rfl) (by decide)).2.1).trans
      (by decide)
  · exact (c6_tagging_failures_nonfatal
      (fun c => match c with | ApiCall.updateService _ _ _ => false | _ => true)
      ⟨[], [⟨none, none, some "Env", some "prod"⟩]⟩ []
      (fun cl sv n => rfl) (by decide)).2.2.2 (fun a t => rfl)
      ⟨"s1", "arn1", "c1", 2, [("ScheduledLastDesiredCount", "2")], false⟩

/-- C7: stop-transition tag delta. With no call raising, the stop tagging path
applies exactly the validated-and-renamed configured "stopped" tag set
extended with the synthesized captured-desired-count tag, and issues one
tag-removal carrying exactly the keys of the renamed "started" set that are
absent from the applied stop set — the removal only when that key set is
non-empty, the application only when the applied set is non-empty, which it
always is (the synthesized tag is always present). -/
theorem c7_stop_transition_tag_delta (env : ApiEnv) (cfg : SchedulerConfig)
    (r : EcsResource) (applied : List TagRec) (removalKeys : List String)
    (henv : ∀ c, env c = false)
    (happlied : applied =
      ((_validate_ecs_tag_values cfg.stopped_tags).1.map renameTagRec) ++
        [synthDesiredCountTag r])
    (hkeys : removalKeys =
      ((cfg.started_tags.map renameTagRec).map tagKeyOf).filter
        (fun k => !((applied.map tagKeyOf).contains k))) :
    (_tag_stopped_resource env cfg r).calls =
      (if removalKeys.isEmpty then [] else [ApiCall.untagResource r.arn removalKeys]) ++
        [ApiCall.tagResource r.arn applied] ∧
    applied ≠ [] ∧
    (∀ k, k ∈ removalKeys ↔
      (k ∈ (cfg.started_tags.map renameTagRec).map tagKeyOf ∧
        ¬ k ∈ applied.map tagKeyOf)) := by
  subst happlied
  subst hkeys
  refine ⟨?_, by simp, ?_⟩
  · unfold _tag_stopped_resource
    dsimp only
    simp only [henv, Bool.false_eq_true, if_false]
    split_ifs <;> simp_all
  · intro k
    simp [List.mem_filter]

/-- C7 witness: a concrete stop transition issues exactly the removal of the
start-only key followed by the application of the extended stop set. -/
theorem c7_witness :
    (_tag_stopped_resource (fun _ => false)
        ⟨[⟨some "Owner", some "alice", none, none⟩], [⟨none, none, some "Env", some "prod"⟩]⟩
        ⟨"s1", "arn1", "c1", 3, [], false⟩).calls =
      [ApiCall.untagResource "arn1" ["Owner"],
       ApiCall.tagResource "arn1"
         [⟨none, none, some "Env", some "prod"⟩,
          ⟨none, none, some "ScheduledLastDesiredCount", some "3"⟩]] :=
  ((c7_stop_transition_tag_delta (fun _ => false)
      ⟨[⟨some "Owner", some "alice", none, none⟩], [⟨none, none, some "Env", some "prod"⟩]⟩
      ⟨"s1", "arn1", "c1", 3, [], false⟩
      [⟨none, none, some "Env", some "prod"⟩,
       ⟨none, none, some "ScheduledLastDesiredCount", some "3"⟩]
      ["Owner"] (fun c => rfl) (by decide) (by decide)).1).trans (by decide)

/-! ## Decimal round trip -/

lemma natDigitsRev_lt (fuel : Nat) : ∀ n, ∀ d ∈ natDigitsRev fuel n, d < 10 := by
  induction fuel with
  | zero =>
    intro n d hd
    cases hd
  | succ fuel ih =>
    intro n d hd
    simp only [natDigitsRev] at hd
    by_cases h : n < 10
    · rw [if_pos h] at hd
      rw [List.mem_singleton.1 hd]
      exact h
    · rw [if_neg h] at hd
      rcases List.mem_cons.1 hd with rfl | hd'
      · exact Nat.mod_lt _ (by norm_num)
      · exact ih _ _ hd'

lemma natDigitsRev_ne_nil (fuel n : Nat) (h : 0 < fuel) : natDigitsRev fuel n ≠ [] := by
  cases fuel with
  | zero => cases h
  | succ fuel =>
    simp only [natDigitsRev]
    split_ifs <;> simp

lemma digitChar_isDigit {d : Nat} (h : d < 10) : (Nat.digitChar d).isDigit = true := by
  interval_cases d <;> decide

lemma digitChar_toNat {d : Nat} (h : d < 10) : (Nat.digitChar d).toNat - 48 = d := by
  interval_cases d <;> decide

lemma foldl_natDigitsRev (fuel : Nat) : ∀ n a, n < 10 ^ fuel →
    ((natDigitsRev fuel n).reverse.map Nat.digitChar).foldl
        (fun a c => 10 * a + (c.toNat - 48)) a =
      a * 10 ^ (natDigitsRev fuel n).length + n := by
  induction fuel with
  | zero =>
    intro n a h
    have hn : n = 0 := by
      simp only [pow_zero] at h
      omega
    subst hn
    simp [natDigitsRev]
  | succ fuel ih =>
    intro n a h
    by_cases hn : n < 10
    · simp only [natDigitsRev, if_pos hn, List.reverse_singleton, List.map_cons,
        List.map_nil, List.foldl_cons, List.foldl_nil, List.length_singleton]
      rw [digitChar_toNat hn]
      ring
    · simp only [natDigitsRev, if_neg hn, List.reverse_cons, List.map_append,
        List.foldl_append, List.map_cons, List.map_nil, List.foldl_cons,
        List.foldl_nil, List.length_cons]
      have hdiv : n / 10 < 10 ^ fuel := by
        rw [Nat.div_lt_iff_lt_mul (by norm_num)]
        calc n < 10 ^ (fuel + 1) := h
          _ = 10 ^ fuel * 10 := by ring
      rw [ih (n / 10) a hdiv, digitChar_toNat (Nat.mod_lt _ (by norm_num))]
      have hdm : 10 * (n / 10) + n % 10 = n := Nat.div_add_mod n 10
      have hexp : 10 * (a * 10 ^ (natDigitsRev fuel (n / 10)).length + n / 10) + n % 10 =
          a * 10 ^ ((natDigitsRev fuel (n / 10)).length + 1) + (10 * (n / 10) + n % 10) := by
        ring
      rw [hexp, hdm]

lemma parseDigits_natDigitsRev (n : Nat) :
    parseDigits ((natDigitsRev (n + 1) n).reverse.map Nat.digitChar) = some n := by
  have hfuel : n < 10 ^ (n + 1) :=
    lt_of_lt_of_le (Nat.lt_pow_self (by norm_num) n)
      (Nat.pow_le_pow_right (by norm_num) (Nat.le_succ n))
  have hne : ((natDigitsRev (n + 1) n).reverse.map Nat.digitChar) ≠ [] := by
    simp [natDigitsRev_ne_nil (n + 1) n (Nat.succ_pos n)]
  have hall : ((natDigitsRev (n + 1) n).reverse.map Nat.digitChar).all Char.isDigit = true := by
    simp only [List.all_eq_true]
    intro c hc
    simp only [List.mem_map, List.mem_reverse] at hc
    obtain ⟨d, hd, rfl⟩ := hc
    exact digitChar_isDigit (natDigitsRev_lt (n + 1) n d hd)
  unfold parseDigits
  rw [if_neg (by simpa [List.isEmpty_iff] using hne), if_pos hall]
  rw [foldl_natDigitsRev (n + 1) n 0 hfuel]
  simp

lemma pyNatStr_head_digit (n : Nat) :
    ∃ c cs, (natDigitsRev (n + 1) n).reverse.map Nat.digitChar = c :: cs ∧
      c.isDigit = true := by
  cases hl : ((natDigitsRev (n + 1) n).reverse.map Nat.digitChar) with
  | nil =>
    exfalso
    have := natDigitsRev_ne_nil (n + 1) n (Nat.succ_pos n)
    simp only [List.map_eq_nil_iff, List.reverse_eq_nil_iff] at hl
    exact this hl
  | cons c cs =>
    refine ⟨c, cs, rfl, ?_⟩
    have hc : c ∈ (natDigitsRev (n + 1) n).reverse.map Nat.digitChar := by
      rw [hl]
      exact List.mem_cons_self _ _
    simp only [List.mem_map, List.mem_reverse] at hc
    obtain ⟨d, hd, rfl⟩ := hc
    exact digitChar_isDigit (natDigitsRev_lt (n + 1) n d hd)

lemma pyInt_of_digit_head {c : Char} {cs : List Char} (h : c.isDigit = true) :
    pyInt ⟨c :: cs⟩ = (parseDigits (c :: cs)).map (fun n => (n : Int)) := by
  have hne1 : ¬ c = '-' := by
    intro hh
    rw [hh] at h
    exact absurd h (by decide)
  have hne2 : ¬ c = '+' := by
    intro hh
    rw [hh] at h
    exact absurd h (by decide)
  unfold pyInt
  simp [hne1, hne2]

lemma pyInt_pyNatStr (n : Nat) : pyInt (pyNatStr n) = some (n : Int) := by
  obtain ⟨c, cs, hcons, hdig⟩ := pyNatStr_head_digit n
  unfold pyNatStr
  rw [hcons, pyInt_of_digit_head hdig, ← hcons, parseDigits_natDigitsRev]
  rfl

lemma tag_stopped_has_tag_call (env : ApiEnv) (cfg : SchedulerConfig) (r : EcsResource)
    (henv : ∀ c, env c = false) :
    ApiCall.tagResource r.arn
        (((_validate_ecs_tag_values cfg.stopped_tags).1.map renameTagRec) ++
          [synthDesiredCountTag r]) ∈
      (_tag_stopped_resource env cfg r).calls := by
  unfold _tag_stopped_resource
  dsimp only
  simp only [henv, Bool.false_eq_true, if_false]
  split_ifs <;> simp_all

/-- C4: capacity capture/restore round-trip. Stopping a resource with desired
count `n` first issues a resize to 0 and applies a stop tag set containing the
synthesized `ScheduledLastDesiredCount` tag whose value is the decimal string
of `n`; starting a resource whose tags carry that value parses it back and
first issues a resize to exactly `n`, regardless of the resource's own current
desired count. -/
theorem c4_capacity_round_trip (env : ApiEnv) (cfg cfg2 : SchedulerConfig)
    (r r2 : EcsResource) (n : Nat)
    (henv : ∀ c, env c = false)
    (hdes : r.desired_count = n)
    (htag : r2.tags.lookup "ScheduledLastDesiredCount" = some (pyNatStr n)) :
    (stop_instances env cfg [r]).calls.head? =
      some (ApiCall.updateService r.cluster_arn r.arn 0) ∧
    (∃ tags, ApiCall.tagResource r.arn tags ∈ (stop_instances env cfg [r]).calls ∧
      (⟨none, none, some "ScheduledLastDesiredCount", some (pyNatStr n)⟩ : TagRec) ∈ tags) ∧
    (start_instances env cfg2 [r2]).calls.head? =
      some (ApiCall.updateService r2.cluster_arn r2.arn (n : Int)) := by
  subst hdes
  refine ⟨?_, ?_, ?_⟩
  · have h0 : env (ApiCall.updateService r.cluster_arn r.arn 0) = false := henv _
    simp [stop_instances, h0]
  · refine ⟨((_validate_ecs_tag_values cfg.stopped_tags).1.map renameTagRec) ++
      [synthDesiredCountTag r], ?_, ?_⟩
    · have h0 : env (ApiCall.updateService r.cluster_arn r.arn 0) = false := henv _
      simp only [stop_instances, h0, Bool.false_eq_true, if_false]
      exact List.mem_cons_of_mem _
        (List.mem_append_left _ (tag_stopped_has_tag_call env cfg r henv))
    · exact List.mem_append_right _ (by simp [synthDesiredCountTag])
  · have hsd : startDesired r2 = some ((r.desired_count : Int)) := by
      unfold startDesired
      rw [htag]
      simpa using pyInt_pyNatStr r.desired_count
    have h0 : env (ApiCall.updateService r2.cluster_arn r2.arn (r.desired_count : Int)) =
        false := henv _
    simp [start_instances, hsd, h0]

/-- C4 witness: a concrete round trip at desired count 4 — the stop path
resizes to 0 and writes `ScheduledLastDesiredCount="4"`, the start path reads
"4" and resizes to 4. -/
theorem c4_witness :
    (stop_instances (fun _ => false) ⟨[], []⟩
        [⟨"svc", "arnA", "cluA", 4, [], false⟩]).calls.head? =
      some (ApiCall.updateService "cluA" "arnA" 0) ∧
    (∃ tags, ApiCall.tagResource "arnA" tags ∈
        (stop_instances (fun _ => false) ⟨[], []⟩
          [⟨"svc", "arnA", "cluA", 4, [], false⟩]).calls ∧
      (⟨none, none, some "ScheduledLastDesiredCount", some (pyNatStr 4)⟩ : TagRec) ∈ tags) ∧
    (start_instances (fun _ => false) ⟨[], []⟩
        [⟨"svc2", "arnB", "cluB", 1, [("ScheduledLastDesiredCount", "4")], false⟩]).calls.head? =
      some (ApiCall.updateService "cluB" "arnB" 4) :=
  c4_capacity_round_trip (fun _ => false) ⟨[], []⟩ ⟨[], []⟩
    ⟨"svc", "arnA", "cluA", 4, [], false⟩
    ⟨"svc2", "arnB", "cluB", 1, [("ScheduledLastDesiredCount", "4")], false⟩ 4
    (fun c => rfl) rfl (by decide)

/-! ## Maintenance-window lemmas -/

lemma weekday_set_build_cases {s : String} {l : List Nat}
    (h : weekday_set_build s = some l) :
    (s, l) ∈ [("Mon", [0]), ("Tue", [1]), ("Wed", [2]), ("Thu", [3]),
      ("Fri", [4]), ("Sat", [5]), ("Sun", [6])] := by
  unfold weekday_set_build at h
  split_ifs at h <;> simp_all

lemma weekday_set_build_inj {s1 s2 : String} {l : List Nat}
    (h1 : weekday_set_build s1 = some l) (h2 : weekday_set_build s2 = some l) :
    s1 = s2 := by
  have c1 := weekday_set_build_cases h1
  have c2 := weekday_set_build_cases h2
  simp only [List.mem_cons, List.mem_singleton, Prod.mk.injEq] at c1 c2
  rcases c1 with h | h | h | h | h | h | h <;>
    rcases c2 with g | g | g | g | g | g | g <;> simp_all

lemma weekday_set_build_singleton {s : String} {l : List Nat}
    (h : weekday_set_build s = some l) : ∃ a, l = [a] := by
  have hc := weekday_set_build_cases h
  simp only [List.mem_cons, Prod.mk.injEq, List.not_mem_nil, or_false] at hc
  rcases hc with ⟨-, rfl⟩ | ⟨-, rfl⟩ | ⟨-, rfl⟩ | ⟨-, rfl⟩ | ⟨-, rfl⟩ | ⟨-, rfl⟩ | ⟨-, rfl⟩
  exacts [⟨0, rfl⟩, ⟨1, rfl⟩, ⟨2, rfl⟩, ⟨3, rfl⟩, ⟨4, rfl⟩, ⟨5, rfl⟩, ⟨6, rfl⟩]

/-- C2: a maintenance window whose start and stop weekday tokens differ builds
a schedule with exactly two periods — `[startTime, 23:59]` on the start
weekday and `[00:00, stopTime]` on the stop weekday — which at minute
granularity cover exactly the interval from the start time through the end of
the start day and from the beginning of the stop day through the stop time,
with no minute covered twice. -/
theorem c2_maintenance_window_two_periods
    (s sd st ed et : String) (w1 w2 : List Nat) (t1 t2 : HHMM)
    (hpw : parseWindow s = some (sd, st, ed, et))
    (hne : sd ≠ ed)
    (hw1 : weekday_set_build sd = some w1)
    (hw2 : weekday_set_build ed = some w2)
    (ht1 : get_time_from_string st = some t1)
    (ht2 : get_time_from_string et = some t2) :
    build_schedule_from_maintenance_window s =
      some ⟨MAINTENANCE_SCHEDULE_NAME,
        [⟨⟨MAINTENANCE_PERIOD_NAME ++ "-" ++ sd, t1, ⟨23, 59⟩, w1⟩, true⟩,
         ⟨⟨MAINTENANCE_PERIOD_NAME ++ "-" ++ ed, ⟨0, 0⟩, t2, w2⟩, true⟩],
        "UTC", true⟩ ∧
    (∀ d m : Nat, m ≤ 1439 →
      ((periodCovers ⟨MAINTENANCE_PERIOD_NAME ++ "-" ++ sd, t1, ⟨23, 59⟩, w1⟩ d m ∨
        periodCovers ⟨MAINTENANCE_PERIOD_NAME ++ "-" ++ ed, ⟨0, 0⟩, t2, w2⟩ d m) ↔
       ((d ∈ w1 ∧ toMinutes t1 ≤ m) ∨ (d ∈ w2 ∧ m ≤ toMinutes t2)))) ∧
    (∀ d m : Nat,
      ¬(periodCovers ⟨MAINTENANCE_PERIOD_NAME ++ "-" ++ sd, t1, ⟨23, 59⟩, w1⟩ d m ∧
        periodCovers ⟨MAINTENANCE_PERIOD_NAME ++ "-" ++ ed, ⟨0, 0⟩, t2, w2⟩ d m)) := by
  have h2359 : get_time_from_string "23:59" = some ⟨23, 59⟩ := by decide
  have h0000 : get_time_from_string "00:00" = some ⟨0, 0⟩ := by decide
  refine ⟨?_, ?_, ?_⟩
  · simp only [build_schedule_from_maintenance_window, hpw, hw1, ht1, ht2]
    rw [if_neg hne]
    simp only [h2359, h0000, hw2]
  · intro d m hm
    dsimp only [periodCovers, toMinutes]
    constructor
    · rintro (⟨hd, hge, _⟩ | ⟨hd, _, hle⟩)
      · exact Or.inl ⟨hd, hge⟩
      · exact Or.inr ⟨hd, hle⟩
    · rintro (⟨hd, hge⟩ | ⟨hd, hle⟩)
      · exact Or.inl ⟨hd, hge, by omega⟩
      · exact Or.inr ⟨hd, by omega, hle⟩
  · rintro d m ⟨⟨hd1, -, -⟩, ⟨hd2, -, -⟩⟩
    obtain ⟨a, rfl⟩ := weekday_set_build_singleton hw1
    obtain ⟨b, rfl⟩ := weekday_set_build_singleton hw2
    rw [List.mem_singleton] at hd1 hd2
    subst hd1
    subst hd2
    exact hne (weekday_set_build_inj hw1 hw2)

/-- C2 witness: the spec's example `"Mon:23:30-Tue:01:00"` yields exactly the
periods `[Mon 23:30-23:59]` and `[Tue 00:00-01:00]`. -/
theorem c2_witness :
    build_schedule_from_maintenance_window "Mon:23:30-Tue:01:00" =
      some ⟨MAINTENANCE_SCHEDULE_NAME,
        [⟨⟨MAINTENANCE_PERIOD_NAME ++ "-" ++ "Mon", ⟨23, 30⟩, ⟨23, 59⟩, [0]⟩, true⟩,
         ⟨⟨MAINTENANCE_PERIOD_NAME ++ "-" ++ "Tue", ⟨0, 0⟩, ⟨1, 0⟩, [1]⟩, true⟩],
        "UTC", true⟩ :=
  (c2_maintenance_window_two_periods "Mon:23:30-Tue:01:00" "Mon" "23:30" "Tue" "01:00"
    [0] [1] ⟨23, 30⟩ ⟨1, 0⟩ (by decide) (by decide) (by decide) (by decide)
    (by decide) (by decide)).1

/-- C3: a maintenance window whose start and stop weekday tokens are equal
builds a schedule with exactly one period spanning the parsed start and stop
times on that weekday; no ordering validation relates the two times (the
theorem has no hypothesis comparing them); and every schedule the builder
returns carries the fixed maintenance-schedule name, timezone UTC and
`enforced=true`. -/
theorem c3_maintenance_window_single_period
    (s sd st ed et : String) (w : List Nat) (t1 t2 : HHMM)
    (hpw : parseWindow s = some (sd, st, ed, et))
    (heq : sd = ed)
    (hw : weekday_set_build sd = some w)
    (ht1 : get_time_from_string st = some t1)
    (ht2 : get_time_from_string et = some t2) :
    build_schedule_from_maintenance_window s =
      some ⟨MAINTENANCE_SCHEDULE_NAME,
        [⟨⟨MAINTENANCE_PERIOD_NAME, t1, t2, w⟩, false⟩], "UTC", true⟩ ∧
    (∀ s' sch, build_schedule_from_maintenance_window s' = some sch →
      sch.name = MAINTENANCE_SCHEDULE_NAME ∧ sch.timezone = "UTC" ∧
        sch.enforced = true) := by
  constructor
  · simp only [build_schedule_from_maintenance_window, hpw, hw, ht1, ht2]
    rw [if_pos heq]
  · intro s' sch h
    unfold build_schedule_from_maintenance_window at h
    repeat' split at h
    all_goals simp_all
    all_goals subst h; exact ⟨rfl, rfl, rfl⟩

/-- C3 witness: an inverted same-day window (start time after stop time) is
accepted as-is and yields the single period `[Mon 10:00-09:00]` in a schedule
with the fixed name, timezone UTC and `enforced=true`. -/
theorem c3_witness :
    build_schedule_from_maintenance_window "Mon:10:00-Mon:09:00" =
      some ⟨MAINTENANCE_SCHEDULE_NAME,
        [⟨⟨MAINTENANCE_PERIOD_NAME, ⟨10, 0⟩, ⟨9, 0⟩, [0]⟩, false⟩], "UTC", true⟩ :=
  (c3_maintenance_window_single_period "Mon:10:00-Mon:09:00" "Mon" "10:00" "Mon" "09:00"
    [0] ⟨10, 0⟩ ⟨9, 0⟩ (by decide) rfl (by decide) (by decide) (by decide)).1

/-- C1 (code bug): on an inventory with two untagged clusters, each owning a
schedule-tagged service, `get_schedulable_instances` returns only the LAST
untagged cluster's services — the loop over `clusters_without_schedule`
assigns (`services = ...`) instead of extending, so cluster A's service is
dropped even though the per-cluster classification itself is as specified. -/
theorem c1_discovery_drops_all_but_last_untagged_cluster :
    get_schedulable_instances "Schedule" invC1 =
      [_select_resource_data "Schedule" svcB false] ∧
    _select_resource_data "Schedule" svcA false ∉
      get_schedulable_instances "Schedule" invC1 ∧
    _validate_service_tag_values "Schedule" (servicesOf invC1 "cluA") =
      [_select_resource_data "Schedule" svcA false] := by
  decide
